import Mathlib

/-!
Verification of `nbdev_example` (`src/nbdev_example/core.py`).

The repository is a single Python function:

  def generate_crd(config:dict={}):
      "Generate a model of a Collective-risk dilemma, using any specifed config options."
      game = {}
      game['parameters'] = {}
      game['parameters']['n'] = config.get('n', 2)
      game['parameters']['b'] = config.get('b', 1)
      game['parameters']['d'] = config.get('d', -10)
      game['parameters']['pr'] = config.get('pr', 0.5)
      return game

We embed it at two levels:
* a value-level function `generate_crd` over immutable association-list
  dictionaries, mirroring the body line by line; and
* an object-level function `generate_crd_heap` over an explicit heap of
  dictionary objects, so that mutation, aliasing, the shared mutable default
  argument and the behaviour of `.get` on a non-dict argument (e.g. `None`)
  are all faithfully representable.

Python `dict` values here carry string keys; stored values are modelled by
the inductive `Value` (ints, floats as exact rationals, strings, booleans,
`None`, and references to heap-allocated dicts).
-/

namespace NbdevExample

/-- Heap addresses for dictionary objects. -/
abbrev Addr := Nat

/-- Dynamic (Python-style) values that can be stored in a dict or passed as an
argument. Floats are modelled as exact rationals; the program performs no
float arithmetic, only pass-through, so this is faithful for every claim. -/
inductive Value where
  | int : Int → Value
  | float : ℚ → Value
  | str : String → Value
  | bool : Bool → Value
  | none : Value
  | ref : Addr → Value
deriving DecidableEq

/-- A Python dict with string keys, as an insertion-ordered association list
(Python dicts have unique keys and preserve insertion order). -/
abbrev Dict := List (String × Value)

/-- `d.get?` is dict key lookup (`k in d` / `d[k]` when present). -/
def Dict.get? : Dict → String → Option Value
  | [], _ => Option.none
  | (k', v) :: rest, k => if k' = k then some v else Dict.get? rest k

/-- `d.get k dflt` is Python's `d.get(k, dflt)`: the stored value when the key
is present, the default otherwise. -/
def Dict.get (d : Dict) (k : String) (dflt : Value) : Value :=
  (d.get? k).getD dflt

/-- `d.set k v` is Python's `d[k] = v` on the dict contents: update in place
when the key exists, append otherwise (insertion order preserved). -/
def Dict.set : Dict → String → Value → Dict
  | [], k, v => [(k, v)]
  | (k', v') :: rest, k, v =>
    if k' = k then (k, v) :: rest else (k', v') :: Dict.set rest k v

/-- The keys of a dict, in order. -/
def Dict.keys (d : Dict) : List String :=
  d.map Prod.fst

/-- The heap maps addresses to dict objects. -/
abbrev Heap := List (Addr × Dict)

/-- Heap lookup. -/
def Heap.get? : Heap → Addr → Option Dict
  | [], _ => Option.none
  | (a', d) :: rest, a => if a' = a then some d else Heap.get? rest a

/-- Replace the object stored at an address. -/
def Heap.set : Heap → Addr → Dict → Heap
  | [], a, d => [(a, d)]
  | (a', d') :: rest, a, d =>
    if a' = a then (a, d) :: rest else (a', d') :: Heap.set rest a d

/-- An address strictly larger than every allocated address. -/
def Heap.fresh (h : Heap) : Addr :=
  h.foldr (fun p m => max (p.1 + 1) m) 0

/-- Allocate a fresh empty dict (a `{}` literal), returning its address. -/
def Heap.alloc (h : Heap) : Addr × Heap :=
  (h.fresh, (h.fresh, []) :: h)

/-- Runtime errors our fragment of Python can raise. -/
inductive PyError where
  | attributeError
  | keyError
  | typeError
  | invalidRef
deriving DecidableEq

/-- Dynamic `obj.get(k, dflt)`: succeeds when `obj` is a reference to a live
dict; on any non-dict value (such as `None`) the attribute access raises
`AttributeError`, exactly as in Python. -/
def dict_get (h : Heap) (obj : Value) (k : String) (dflt : Value) :
    Except PyError Value :=
  match obj with
  | .ref a =>
    match h.get? a with
    | some d => .ok (d.get k dflt)
    | Option.none => .error .invalidRef
  | _ => .error .attributeError

/-- `d[k]` read on the dict at address `a` (raises `KeyError` when absent). -/
def dict_getitem (h : Heap) (a : Addr) (k : String) : Except PyError Value :=
  match h.get? a with
  | some d =>
    match d.get? k with
    | some v => .ok v
    | Option.none => .error .keyError
  | Option.none => .error .invalidRef

/-- `d[k] = v` on the dict object at address `a` (a heap mutation). The
address is always one we just allocated, so the missing-address branch is
unreachable in this development. -/
def dict_setitem (h : Heap) (a : Addr) (k : String) (v : Value) : Heap :=
  match h.get? a with
  | some d => h.set a (d.set k v)
  | Option.none => h

/-- Subscript assignment `obj[k] = v` on a dynamic value: only dict
references support it. -/
def subscript_set (h : Heap) (obj : Value) (k : String) (v : Value) :
    Except PyError Heap :=
  match obj with
  | .ref a => .ok (dict_setitem h a k v)
  | _ => .error .typeError

/-- One line `game['parameters'][k] = config.get(k, dflt)` of the body:
evaluate the right-hand side, read `game['parameters']`, then store through
the resulting reference (errors propagate as raised exceptions). -/
def assign_param (h : Heap) (game : Addr) (config : Value) (k : String)
    (dflt : Value) : Except PyError Heap :=
  (dict_get h config k dflt).bind fun v =>
  (dict_getitem h game "parameters").bind fun pv =>
  subscript_set h pv k v

/-- The result record: the returned dict has the single key `parameters`
holding the parameter dict. -/
structure GameModel where
  parameters : Dict
deriving DecidableEq

/-- Value-level translation of `generate_crd` from
`src/nbdev_example/core.py`, line by line: start from an empty parameter
dict and set the four recognized keys, each taken from `config` via
`.get(key, default)` with defaults `n = 2`, `b = 1`, `d = -10`,
`pr = 0.5`. -/
def generate_crd (config : Dict := []) : GameModel :=
  let parameters : Dict := []
  let parameters := parameters.set "n" (config.get "n" (.int 2))
  let parameters := parameters.set "b" (config.get "b" (.int 1))
  let parameters := parameters.set "d" (config.get "d" (.int (-10)))
  let parameters := parameters.set "pr" (config.get "pr" (.float (1/2)))
  { parameters := parameters }

/-- Object-level translation of `generate_crd`: the same lines executed over
an explicit heap, with `config` an arbitrary dynamic value (a dict
reference, or `None`, etc.). `game = {}` and the `{}` on line
`game['parameters'] = {}` each allocate a fresh dict. -/
def generate_crd_heap (h0 : Heap) (config : Value) :
    Except PyError (Value × Heap) :=
  let (game, h1) := h0.alloc
  let (p, h2) := h1.alloc
  let h3 := dict_setitem h2 game "parameters" (.ref p)
  (assign_param h3 game config "n" (.int 2)).bind fun h4 =>
  (assign_param h4 game config "b" (.int 1)).bind fun h5 =>
  (assign_param h5 game config "d" (.int (-10))).bind fun h6 =>
  (assign_param h6 game config "pr" (.float (1/2))).bind fun h7 =>
  .ok (.ref game, h7)

/-- Module state: the heap plus the address of the one shared dict object
created when `def generate_crd(config:dict={})` is evaluated at import time
(Python evaluates the default argument once). -/
structure ModuleState where
  heap : Heap
  defaultAddr : Addr
deriving DecidableEq

/-- Importing the module evaluates the `{}` default argument once. -/
def importModule : ModuleState :=
  let (a, h) := Heap.alloc []
  ⟨h, a⟩

/-- Calling `generate_crd()` with no argument: `config` is bound to the
shared default dict object. -/
def callNoArg (s : ModuleState) : Except PyError (Value × ModuleState) :=
  (generate_crd_heap s.heap (.ref s.defaultAddr)).bind fun r =>
  .ok (r.1, ⟨r.2, s.defaultAddr⟩)

/-- Calling `generate_crd(c)` where the caller first builds a fresh dict
literal with contents `cd`. -/
def callWith (s : ModuleState) (cd : Dict) : Except PyError (Value × ModuleState) :=
  let ca := s.heap.fresh
  let h1 : Heap := (ca, cd) :: s.heap
  (generate_crd_heap h1 (.ref ca)).bind fun r =>
  .ok (r.1, ⟨r.2, s.defaultAddr⟩)

/-- A call in a client session: either `generate_crd()` or
`generate_crd({...})` with a caller-built dict. -/
inductive Call where
  | noArg : Call
  | withArg : Dict → Call
deriving DecidableEq

/-- Execute one call for its effect on the module state. -/
def runCall (s : ModuleState) : Call → ModuleState
  | .noArg =>
    match callNoArg s with
    | .ok (_, s') => s'
    | .error _ => s
  | .withArg cd =>
    match callWith s cd with
    | .ok (_, s') => s'
    | .error _ => s

/-- Execute a sequence of calls. -/
def runCalls (s : ModuleState) (cs : List Call) : ModuleState :=
  cs.foldl runCall s

/-- Read back the parameter dict of a returned model: dereference the game
dict, follow its `parameters` entry, dereference that. -/
def readParams (h : Heap) (v : Value) : Option Dict :=
  match v with
  | .ref g =>
    match h.get? g with
    | some gd =>
      match gd.get? "parameters" with
      | some (.ref p) => h.get? p
      | _ => Option.none
    | Option.none => Option.none
  | _ => Option.none

/-! ### Basic heap lemmas -/

theorem Except.bind_ok_eq {ε α β : Type} (a : α) (f : α → Except ε β) :
    (Except.ok a : Except ε α).bind f = f a := rfl

theorem Heap.fresh_cons (a : Addr) (d : Dict) (h : Heap) :
    Heap.fresh ((a, d) :: h) = max (a + 1) h.fresh := rfl

theorem Heap.get?_set_self (h : Heap) (a : Addr) (d : Dict) :
    (h.set a d).get? a = some d := by
  induction h with
  | nil => simp [Heap.set, Heap.get?]
  | cons hd tl ih =>
    obtain ⟨a', d'⟩ := hd
    by_cases hc : a' = a
    · simp [Heap.set, Heap.get?, hc]
    · simp [Heap.set, Heap.get?, hc, ih]

theorem Heap.get?_set_ne (h : Heap) (a b : Addr) (d : Dict) (hne : b ≠ a) :
    (h.set a d).get? b = h.get? b := by
  induction h with
  | nil => simp [Heap.set, Heap.get?, Ne.symm hne]
  | cons hd tl ih =>
    obtain ⟨a', d'⟩ := hd
    by_cases hc : a' = a
    · subst hc
      simp [Heap.set, Heap.get?, Ne.symm hne, hne]
    · by_cases hb : a' = b
      · simp [Heap.set, Heap.get?, hc, hb, hne]
      · simp [Heap.set, Heap.get?, hc, hb, ih]

theorem Heap.lt_fresh_of_get? (h : Heap) (a : Addr) (d : Dict)
    (hget : h.get? a = some d) : a < h.fresh := by
  induction h with
  | nil => simp [Heap.get?] at hget
  | cons hd tl ih =>
    obtain ⟨a', d'⟩ := hd
    rw [Heap.fresh_cons]
    by_cases hc : a' = a
    · subst hc
      exact lt_of_lt_of_le (Nat.lt_succ_self a') (le_max_left _ _)
    · simp [Heap.get?, hc] at hget
      exact lt_of_lt_of_le (ih hget) (le_max_right _ _)

theorem Heap.get?_fresh (h : Heap) : h.get? h.fresh = Option.none := by
  cases hc : h.get? h.fresh with
  | none => rfl
  | some d => exact absurd (Heap.lt_fresh_of_get? h h.fresh d hc) (lt_irrefl _)

/-! ### Symbolic execution of the body -/

/-- The parameter dict built by the value-level function, in literal form. -/
theorem generate_crd_parameters (config : Dict) :
    (generate_crd config).parameters =
      [("n", config.get "n" (.int 2)), ("b", config.get "b" (.int 1)),
       ("d", config.get "d" (.int (-10))), ("pr", config.get "pr" (.float (1/2)))] := rfl

/-- Effect of `game['parameters'] = {}` on the freshly allocated objects. -/
theorem setitem_init (h : Heap) (g p : Addr) (hgp : g ≠ p) :
    dict_setitem ((p, []) :: (g, []) :: h) g "parameters" (Value.ref p) =
      (p, []) :: (g, [("parameters", Value.ref p)]) :: h := by
  simp [dict_setitem, Heap.get?, Heap.set, Dict.set, Ne.symm hgp, hgp]

/-- Effect of one `game['parameters'][k] = config.get(k, dflt)` line when the
heap has the shape produced by the allocation prologue: only the parameter
dict at `p` changes. -/
theorem assign_param_step (h : Heap) (g p ca : Addr) (pd cd : Dict) (k : String)
    (dflt : Value) (hgp : g ≠ p) (hcg : ca ≠ g) (hcp : ca ≠ p)
    (hca : Heap.get? h ca = some cd) :
    assign_param ((p, pd) :: (g, [("parameters", Value.ref p)]) :: h) g
        (Value.ref ca) k dflt =
      .ok ((p, pd.set k (cd.get k dflt)) :: (g, [("parameters", Value.ref p)]) :: h) := by
  simp [assign_param, dict_get, dict_getitem, subscript_set, dict_setitem,
        Heap.get?, Heap.set, Dict.get?, Except.bind_ok_eq,
        Ne.symm hgp, Ne.symm hcg, Ne.symm hcp, hgp, hcg, hcp, hca]

/-- Main lemma: calling `generate_crd` on (a reference to) any live dict `cd`
succeeds, allocates two fresh objects `g` (the game dict) and `p` (the
parameter dict), fills `p` exactly as the value-level `generate_crd cd`
does, and leaves every other heap object — in particular the caller's
dict — untouched. -/
theorem generate_crd_heap_spec (h : Heap) (ca : Addr) (cd : Dict)
    (hca : Heap.get? h ca = some cd) :
    ∃ g p h',
      generate_crd_heap h (Value.ref ca) = .ok (Value.ref g, h') ∧
      Heap.get? h g = Option.none ∧
      Heap.get? h p = Option.none ∧
      g ≠ p ∧
      Heap.get? h' g = some [("parameters", Value.ref p)] ∧
      Heap.get? h' p = some (generate_crd cd).parameters ∧
      readParams h' (Value.ref g) = some (generate_crd cd).parameters ∧
      (∀ a, a ≠ g → a ≠ p → Heap.get? h' a = Heap.get? h a) := by
  obtain ⟨g, hgdef⟩ : ∃ g, Heap.fresh h = g := ⟨_, rfl⟩
  obtain ⟨p, hpdef⟩ : ∃ p, Heap.fresh ((g, []) :: h) = p := ⟨_, rfl⟩
  have hgn : Heap.get? h g = Option.none := hgdef ▸ Heap.get?_fresh h
  have hpn1 : Heap.get? ((g, []) :: h) p = Option.none := hpdef ▸ Heap.get?_fresh _
  have hgp : g ≠ p := by
    intro e
    rw [← e] at hpn1
    simp [Heap.get?] at hpn1
  have hpn : Heap.get? h p = Option.none := by
    simpa [Heap.get?, hgp] using hpn1
  have hcg : ca ≠ g := by
    intro e
    rw [e, hgn] at hca
    exact Option.noConfusion hca
  have hcp : ca ≠ p := by
    intro e
    rw [e, hpn] at hca
    exact Option.noConfusion hca
  have sA : ∀ v : Value, Dict.set [] "n" v = [("n", v)] := fun _ => rfl
  have sB : ∀ v1 v : Value, Dict.set [("n", v1)] "b" v = [("n", v1), ("b", v)] :=
    fun _ _ => rfl
  have sC : ∀ v1 v2 v : Value,
      Dict.set [("n", v1), ("b", v2)] "d" v = [("n", v1), ("b", v2), ("d", v)] :=
    fun _ _ _ => rfl
  have sD : ∀ v1 v2 v3 v : Value,
      Dict.set [("n", v1), ("b", v2), ("d", v3)] "pr" v =
        [("n", v1), ("b", v2), ("d", v3), ("pr", v)] :=
    fun _ _ _ _ => rfl
  have st1 := assign_param_step h g p ca [] cd "n" (Value.int 2) hgp hcg hcp hca
  have st2 := assign_param_step h g p ca [("n", cd.get "n" (Value.int 2))] cd
    "b" (Value.int 1) hgp hcg hcp hca
  have st3 := assign_param_step h g p ca
    [("n", cd.get "n" (Value.int 2)), ("b", cd.get "b" (Value.int 1))] cd
    "d" (Value.int (-10)) hgp hcg hcp hca
  have st4 := assign_param_step h g p ca
    [("n", cd.get "n" (Value.int 2)), ("b", cd.get "b" (Value.int 1)),
     ("d", cd.get "d" (Value.int (-10)))] cd
    "pr" (Value.float (1/2)) hgp hcg hcp hca
  refine ⟨g, p,
    (p, (generate_crd cd).parameters) :: (g, [("parameters", Value.ref p)]) :: h,
    ?_, hgn, hpn, hgp, ?_, ?_, ?_, ?_⟩
  · simp only [generate_crd_heap, Heap.alloc, hgdef, hpdef, setitem_init h g p hgp,
      st1, st2, st3, st4, sA, sB, sC, sD, Except.bind_ok_eq, generate_crd_parameters]
  · simp [Heap.get?, Ne.symm hgp]
  · simp [Heap.get?]
  · simp [readParams, Heap.get?, Dict.get?, Ne.symm hgp]
  · intro a hag hap
    simp [Heap.get?, Ne.symm hag, Ne.symm hap]

/-! ### Claims -/

/-- Claim C1: for every input mapping and each recognized key among `n`,
`b`, `d`, `pr`, the output parameter value is the input's stored value when
the key is present (passed through unchanged) and the fixed default
(`n`: 2, `b`: 1, `d`: -10, `pr`: 0.5) otherwise; in particular the two
example mappings of the spec evaluate exactly as stated. -/
theorem C1_recognized_keys_override_or_default :
    (∀ config : Dict,
      (generate_crd config).parameters.get? "n" = some ((config.get? "n").getD (.int 2)) ∧
      (generate_crd config).parameters.get? "b" = some ((config.get? "b").getD (.int 1)) ∧
      (generate_crd config).parameters.get? "d" = some ((config.get? "d").getD (.int (-10))) ∧
      (generate_crd config).parameters.get? "pr" = some ((config.get? "pr").getD (.float (1/2)))) ∧
    generate_crd [("n", .int 5)] =
      ⟨[("n", .int 5), ("b", .int 1), ("d", .int (-10)), ("pr", .float (1/2))]⟩ ∧
    generate_crd [("n", .int 5), ("b", .int 2), ("d", .int 0), ("pr", .float (9/10))] =
      ⟨[("n", .int 5), ("b", .int 2), ("d", .int 0), ("pr", .float (9/10))]⟩ := by
  refine ⟨fun config => ⟨?_, ?_, ?_, ?_⟩, rfl, rfl⟩ <;>
    simp [generate_crd_parameters, Dict.get?, Dict.get]

/-- Claim C2: whatever the input mapping contains, the output parameter
mapping has exactly the four keys `n`, `b`, `d`, `pr` in that order; any
other input key is ignored, so a mapping with only an unrecognized key
yields the same model as the empty mapping. -/
theorem C2_exactly_four_keys :
    (∀ config : Dict, (generate_crd config).parameters.keys = ["n", "b", "d", "pr"]) ∧
    generate_crd [("extra_key", .str "ignored")] = generate_crd [] :=
  ⟨fun _ => rfl, rfl⟩

/-- Claim C3: calling with the empty mapping and calling with no argument
produce the same fully-defaulted model, both at the value level (the
optional-argument default) and at the object level (the shared default
dict object vs a fresh empty caller dict). -/
theorem C3_empty_equals_no_argument :
    generate_crd = generate_crd [] ∧
    generate_crd [] =
      ⟨[("n", .int 2), ("b", .int 1), ("d", .int (-10)), ("pr", .float (1/2))]⟩ ∧
    (callNoArg importModule).map (fun r => readParams r.2.heap r.1) =
      (callWith importModule []).map (fun r => readParams r.2.heap r.1) ∧
    (callNoArg importModule).map (fun r => readParams r.2.heap r.1) =
      .ok (some [("n", .int 2), ("b", .int 1), ("d", .int (-10)), ("pr", .float (1/2))]) :=
  ⟨rfl, rfl, rfl, rfl⟩

/-- Claim C4, counterexample: passing `None` explicitly is NOT treated as an
empty mapping. `config.get` on `None` raises `AttributeError` (`None` has
no `get` attribute), so the call with `None` produces no model at all,
while the no-argument call succeeds; the two results differ. -/
theorem C4_counterexample :
    generate_crd_heap importModule.heap Value.none = .error .attributeError ∧
    (generate_crd_heap importModule.heap Value.none).map (fun r => readParams r.2 r.1) ≠
      (callNoArg importModule).map (fun r => readParams r.2.heap r.1) :=
  ⟨rfl, fun h => Except.noConfusion h⟩

/-- Claim C4 as amended: when the argument is absent the call uses the
shared default empty dict and returns the fully-defaulted model; passing
`None` explicitly is not supported and raises `AttributeError`. -/
theorem C4_absent_defaults_but_none_raises :
    (callNoArg importModule).map (fun r => readParams r.2.heap r.1) =
      .ok (some (generate_crd []).parameters) ∧
    generate_crd_heap importModule.heap Value.none = .error .attributeError :=
  ⟨rfl, rfl⟩

/-- Claim C5: on every dict input — any live dict whatever its contents,
with values of any type and no validation or coercion — the call returns a
result and never raises. -/
theorem C5_never_fails_on_mappings (h : Heap) (ca : Addr) (cd : Dict)
    (hca : Heap.get? h ca = some cd) :
    ∃ v h', generate_crd_heap h (Value.ref ca) = .ok (v, h') := by
  obtain ⟨g, p, h', hrun, -, -, -, -, -, -, -⟩ := generate_crd_heap_spec h ca cd hca
  exact ⟨_, _, hrun⟩

/-- Witness for C5 at a concrete heap holding a dict with an unexpected
string-valued key. -/
theorem C5_witness :
    ∃ v h', generate_crd_heap [(0, [("x", Value.str "y")])] (Value.ref 0) = .ok (v, h') :=
  C5_never_fails_on_mappings [(0, [("x", Value.str "y")])] 0 [("x", Value.str "y")] rfl

/-- Claim C6: the call never writes to the input mapping: after the call
the caller's dict object holds exactly the contents it held before. -/
theorem C6_input_mapping_unchanged (h : Heap) (ca : Addr) (cd : Dict)
    (hca : Heap.get? h ca = some cd) :
    ∃ v h', generate_crd_heap h (Value.ref ca) = .ok (v, h') ∧
      Heap.get? h' ca = some cd := by
  obtain ⟨g, p, h', hrun, hgn, hpn, -, -, -, -, hframe⟩ :=
    generate_crd_heap_spec h ca cd hca
  have hcg : ca ≠ g := by
    intro e
    rw [e, hgn] at hca
    exact Option.noConfusion hca
  have hcp : ca ≠ p := by
    intro e
    rw [e, hpn] at hca
    exact Option.noConfusion hca
  refine ⟨_, h', hrun, ?_⟩
  rw [hframe ca hcg hcp]
  exact hca

/-- Witness for C6 at a concrete heap holding a dict that overrides `n`. -/
theorem C6_witness :
    ∃ v h', generate_crd_heap [(7, [("n", Value.int 5)])] (Value.ref 7) = .ok (v, h') ∧
      Heap.get? h' 7 = some [("n", Value.int 5)] :=
  C6_input_mapping_unchanged [(7, [("n", Value.int 5)])] 7 [("n", Value.int 5)] rfl

/-- Claim C7: two successive calls on the same input succeed, return models
at distinct addresses (independently owned, no shared mutable state), and
the two models read back structurally equal parameter dicts. -/
theorem C7_deterministic_and_independent (h : Heap) (ca : Addr) (cd : Dict)
    (hca : Heap.get? h ca = some cd) :
    ∃ g1 h1 g2 h2,
      generate_crd_heap h (Value.ref ca) = .ok (Value.ref g1, h1) ∧
      generate_crd_heap h1 (Value.ref ca) = .ok (Value.ref g2, h2) ∧
      g1 ≠ g2 ∧
      readParams h2 (Value.ref g1) = readParams h2 (Value.ref g2) ∧
      readParams h2 (Value.ref g1) = some (generate_crd cd).parameters := by
  obtain ⟨g1, p1, h1, hrun1, hg1n, hp1n, hg1p1, h1g1, h1p1, hread1, hframe1⟩ :=
    generate_crd_heap_spec h ca cd hca
  have hcg1 : ca ≠ g1 := by
    intro e
    rw [e, hg1n] at hca
    exact Option.noConfusion hca
  have hcp1 : ca ≠ p1 := by
    intro e
    rw [e, hp1n] at hca
    exact Option.noConfusion hca
  have hca1 : Heap.get? h1 ca = some cd := by
    rw [hframe1 ca hcg1 hcp1]
    exact hca
  obtain ⟨g2, p2, h2, hrun2, h1g2n, h1p2n, hg2p2, h2g2, h2p2, hread2, hframe2⟩ :=
    generate_crd_heap_spec h1 ca cd hca1
  have hg12 : g1 ≠ g2 := by
    intro e
    rw [e, h1g2n] at h1g1
    exact Option.noConfusion h1g1
  have hg1p2 : g1 ≠ p2 := by
    intro e
    rw [e, h1p2n] at h1g1
    exact Option.noConfusion h1g1
  have hp1g2 : p1 ≠ g2 := by
    intro e
    rw [e, h1g2n] at h1p1
    exact Option.noConfusion h1p1
  have hp1p2 : p1 ≠ p2 := by
    intro e
    rw [e, h1p2n] at h1p1
    exact Option.noConfusion h1p1
  have h2g1 : Heap.get? h2 g1 = some [("parameters", Value.ref p1)] := by
    rw [hframe2 g1 hg12 hg1p2]
    exact h1g1
  have h2p1 : Heap.get? h2 p1 = some (generate_crd cd).parameters := by
    rw [hframe2 p1 hp1g2 hp1p2]
    exact h1p1
  have hread1' : readParams h2 (Value.ref g1) = some (generate_crd cd).parameters := by
    simp [readParams, h2g1, h2p1, Dict.get?]
  exact ⟨g1, h1, g2, h2, hrun1, hrun2, hg12, hread1'.trans hread2.symm, hread1'⟩

/-- Witness for C7: two successive calls on the shared empty dict. -/
theorem C7_witness :
    ∃ g1 h1 g2 h2,
      generate_crd_heap [(0, [])] (Value.ref 0) = .ok (Value.ref g1, h1) ∧
      generate_crd_heap h1 (Value.ref 0) = .ok (Value.ref g2, h2) ∧
      g1 ≠ g2 ∧
      readParams h2 (Value.ref g1) = readParams h2 (Value.ref g2) ∧
      readParams h2 (Value.ref g1) = some (generate_crd []).parameters :=
  C7_deterministic_and_independent [(0, [])] 0 [] rfl

/-- Claim C8: the embedded body is total — every synchronous call
completes, producing either a model or a raised error; there is no
recursion or unbounded iteration to diverge on. -/
theorem C8_call_always_completes :
    ∀ (h : Heap) (arg : Value),
      (∃ v h', generate_crd_heap h arg = .ok (v, h')) ∨
      (∃ e, generate_crd_heap h arg = .error e) := by
  intro h arg
  cases hE : generate_crd_heap h arg with
  | error e => exact Or.inr ⟨e, rfl⟩
  | ok r =>
    obtain ⟨v, h'⟩ := r
    exact Or.inl ⟨v, h', rfl⟩

/-- Claim C9: presence of a recognized key, not its value, decides the
override: any stored value — including `None` and values equal to the
defaults — is passed through unchanged; the defaults appear only when the
key is absent. -/
theorem C9_presence_decides_override :
    (∀ v : Value,
      (generate_crd [("n", v)]).parameters.get? "n" = some v ∧
      (generate_crd [("b", v)]).parameters.get? "b" = some v ∧
      (generate_crd [("d", v)]).parameters.get? "d" = some v ∧
      (generate_crd [("pr", v)]).parameters.get? "pr" = some v) ∧
    (generate_crd [("n", Value.none)]).parameters.get? "n" = some Value.none ∧
    (generate_crd []).parameters.get? "n" = some (.int 2) ∧
    (generate_crd []).parameters.get? "b" = some (.int 1) ∧
    (generate_crd []).parameters.get? "d" = some (.int (-10)) ∧
    (generate_crd []).parameters.get? "pr" = some (.float (1/2)) :=
  ⟨fun _ => ⟨rfl, rfl, rfl, rfl⟩, rfl, rfl, rfl, rfl, rfl⟩

/-- One call (with or without an argument) preserves the module invariant:
the default address is unchanged and the shared default dict is still
empty. -/
theorem runCall_invariant (s : ModuleState) (c : Call)
    (hI : Heap.get? s.heap s.defaultAddr = some []) :
    (runCall s c).defaultAddr = s.defaultAddr ∧
    Heap.get? (runCall s c).heap (runCall s c).defaultAddr = some [] := by
  cases c with
  | noArg =>
    obtain ⟨g, p, h', hrun, hgn, hpn, -, -, -, -, hframe⟩ :=
      generate_crd_heap_spec s.heap s.defaultAddr [] hI
    have hdg : s.defaultAddr ≠ g := by
      intro e
      rw [e, hgn] at hI
      exact Option.noConfusion hI
    have hdp : s.defaultAddr ≠ p := by
      intro e
      rw [e, hpn] at hI
      exact Option.noConfusion hI
    have hcall : callNoArg s = .ok (Value.ref g, ⟨h', s.defaultAddr⟩) := by
      simp [callNoArg, hrun, Except.bind_ok_eq]
    refine ⟨by simp [runCall, hcall], ?_⟩
    simp only [runCall, hcall]
    rw [hframe _ hdg hdp]
    exact hI
  | withArg cd =>
    have hca1 : Heap.get? ((s.heap.fresh, cd) :: s.heap) s.heap.fresh = some cd := by
      simp [Heap.get?]
    obtain ⟨g, p, h', hrun, hgn, hpn, -, -, -, -, hframe⟩ :=
      generate_crd_heap_spec ((s.heap.fresh, cd) :: s.heap) s.heap.fresh cd hca1
    have hfr : Heap.get? s.heap s.heap.fresh = Option.none := Heap.get?_fresh s.heap
    have hne : s.heap.fresh ≠ s.defaultAddr := by
      intro e
      rw [e, hI] at hfr
      exact Option.noConfusion hfr
    have hd1 : Heap.get? ((s.heap.fresh, cd) :: s.heap) s.defaultAddr = some [] := by
      simp [Heap.get?, hne]
      exact hI
    have hdg : s.defaultAddr ≠ g := by
      intro e
      rw [e, hgn] at hd1
      exact Option.noConfusion hd1
    have hdp : s.defaultAddr ≠ p := by
      intro e
      rw [e, hpn] at hd1
      exact Option.noConfusion hd1
    have hcall : callWith s cd = .ok (Value.ref g, ⟨h', s.defaultAddr⟩) := by
      simp [callWith, hrun, Except.bind_ok_eq]
    refine ⟨by simp [runCall, hcall], ?_⟩
    simp only [runCall, hcall]
    rw [hframe _ hdg hdp]
    exact hd1

/-- The module invariant holds after any sequence of calls. -/
theorem runCalls_invariant (cs : List Call) (s : ModuleState)
    (hI : Heap.get? s.heap s.defaultAddr = some []) :
    Heap.get? (runCalls s cs).heap (runCalls s cs).defaultAddr = some [] ∧
    (runCalls s cs).defaultAddr = s.defaultAddr := by
  induction cs generalizing s with
  | nil => exact ⟨hI, rfl⟩
  | cons c rest ih =>
    obtain ⟨hd, hh⟩ := runCall_invariant s c hI
    obtain ⟨ih1, ih2⟩ := ih (runCall s c) hh
    exact ⟨ih1, ih2.trans hd⟩

/-- Claim C10: the shared mutable default-argument dict is never written by
any call, so after any sequence of calls (with or without arguments) it is
still empty and the next zero-argument call still returns the
fully-defaulted model, i.e. behaves exactly as a call on an empty
mapping. -/
theorem C10_shared_default_never_mutated :
    ∀ cs : List Call,
      (runCalls importModule cs).defaultAddr = importModule.defaultAddr ∧
      Heap.get? (runCalls importModule cs).heap (runCalls importModule cs).defaultAddr =
        some [] ∧
      ∃ v s', callNoArg (runCalls importModule cs) = .ok (v, s') ∧
        readParams s'.heap v = some (generate_crd []).parameters := by
  intro cs
  have h0 : Heap.get? importModule.heap importModule.defaultAddr = some [] := rfl
  obtain ⟨hheap, hdef⟩ := runCalls_invariant cs importModule h0
  refine ⟨hdef, hheap, ?_⟩
  obtain ⟨g, p, h', hrun, -, -, -, -, -, hread, -⟩ :=
    generate_crd_heap_spec _ _ [] hheap
  have hcall : callNoArg (runCalls importModule cs) =
      .ok (Value.ref g, ⟨h', (runCalls importModule cs).defaultAddr⟩) := by
    simp [callNoArg, hrun, Except.bind_ok_eq]
  exact ⟨_, _, hcall, hread⟩

end NbdevExample
